import Mathlib

/-!
Shallow embedding of the data-acquisition and photo-cache-reconciliation
core of `ldsdirectory.py` (classes `Member` and `DataFetcher`), together
with theorems settling the specification claims about it.

Python strings are modelled as Lean `String`, with the handful of Python
string operations the source uses (`replace`, `split`, `strip`, `join`)
re-implemented structurally over `List Char` so that every definition is
executable by kernel reduction.  Dynamically-typed JSON identifier values
are modelled by `JVal` (a string or an integer), since the source mixes
raw identifiers and `str(...)`-converted identifiers.  A Python `dict`
access `d[k]` on a possibly-missing key is modelled with `Option` (a
`none` field models an absent key and evaluates to a `KeyError`-style
failure), while a JSON `null` value sitting under a present key is the
inner `none` of an `Option (Option String)` field.
-/

/-- Does `p` occur as a leading segment of `s`? (Helper for the scanner
modelling Python `str.replace`.) -/
def leadsWith : List Char → List Char → Bool
  | [], _ => true
  | _ :: _, [] => false
  | p :: ps, c :: cs => p = c && leadsWith ps cs

/-- Fuel-driven scanner for Python `s.replace('.jpg', '')`: scan left to
right, deleting every non-overlapping occurrence of `.jpg`.  Each step
consumes at least one character, so fuel equal to the length of the input
makes the fuel bound unreachable. -/
def stripJpgFuel : Nat → List Char → List Char
  | _, [] => []
  | 0, s => s
  | n + 1, c :: rest =>
    if leadsWith ['.', 'j', 'p', 'g'] (c :: rest) then stripJpgFuel n (rest.drop 3)
    else c :: stripJpgFuel n rest

/-- Python `entry.replace('.jpg', '')` as used at lines 127 and 137 of the
source: remove every occurrence of the substring `.jpg`. -/
def stripJpg (s : String) : String := ⟨stripJpgFuel s.data.length s.data⟩

/-- Does the substring `.jpg` occur anywhere in the character list? -/
def occursJpg : List Char → Bool
  | [] => false
  | c :: rest => leadsWith ['.', 'j', 'p', 'g'] (c :: rest) || occursJpg rest

/-- Python single-character `str.split(sep)`. -/
def splitChar (sep : Char) : List Char → List (List Char)
  | [] => [[]]
  | c :: cs =>
    if c = sep then [] :: splitChar sep cs
    else
      match splitChar sep cs with
      | [] => [[c]]
      | g :: gs => (c :: g) :: gs

/-- The whitespace characters recognised by the model of Python
`str.strip()`. -/
def isSpaceChar (c : Char) : Bool :=
  c = ' ' || c = '\t' || c = '\n' || c = '\r'

/-- Python `str.strip()`: drop whitespace from both ends. -/
def stripEnds (s : List Char) : List Char :=
  ((s.dropWhile isSpaceChar).reverse.dropWhile isSpaceChar).reverse

/-- Python `sep.join(parts)`. -/
def joinWith (sep : List Char) : List (List Char) → List Char
  | [] => []
  | [g] => g
  | g :: gs => g ++ sep ++ joinWith sep gs

/-- Python `s.split(',')` on Lean strings. -/
def pySplitComma (s : String) : List String :=
  (splitChar ',' s.data).map (fun g => ⟨g⟩)

/-- Python `s.strip()` on Lean strings. -/
def pyStrip (s : String) : String := ⟨stripEnds s.data⟩

/-- Python `' '.join(parts)` on Lean strings. -/
def joinSpace (parts : List String) : String :=
  ⟨joinWith [' '] (parts.map String.data)⟩

/-- Does some string end with `.jpg`?  (This is the claim-side notion of a
trailing fixed extension; the source itself never tests suffixes.) -/
def endsWithJpg (s : String) : Bool :=
  leadsWith ['.', 'j', 'p', 'g'].reverse s.data.reverse

/-- A dynamically-typed JSON identifier value: the remote payload may carry
identifiers as JSON strings or as JSON numbers. -/
inductive JVal where
  | jstr : String → JVal
  | jint : Int → JVal
deriving DecidableEq

/-- Python `str(...)` on an identifier value. -/
def pyStr : JVal → String
  | .jstr s => s
  | .jint n => toString n

/-- Python truthiness of an `Optional[str]` value: `None` and the empty
string are falsy, every other string is truthy. -/
def pyTruthyStr : Option String → Bool
  | none => false
  | some s => if s = "" then false else true

/-- The `Member` dataclass (source lines 14-25).  `id` keeps the raw JSON
identifier value; `image_path` starts out absent. -/
structure Member where
  id : JVal
  member_number : String
  given_name : String
  surname : String
  preferred_name : String
  email : String
  phone : String
  address_parts : List String
  calling : Option String
  image_path : Option String
deriving DecidableEq

/-- The fixed placeholder returned when a member has no (truthy) calling
(source line 40). -/
def noCallingPlaceholder : String := "<i>No calling</i>"

/-- `Member.formatted_name` (source lines 27-33): split `preferred_name` on
commas, strip each part, reverse, join with single spaces. -/
def Member.formatted_name (m : Member) : String :=
  joinSpace (((pySplitComma m.preferred_name).map pyStrip).reverse)

/-- `Member.formatted_calling` (source lines 35-40): Python evaluates
`if self.calling:`, so both `None` and the empty string fall back to the
placeholder. -/
def Member.formatted_calling (m : Member) : String :=
  match m.calling with
  | some c => if c = "" then noCallingPlaceholder else c
  | none => noCallingPlaceholder

/-- The nested `headOfHouse` structure of one household record, holding the
required fields read at source lines 54-60. -/
structure HeadOfHouse where
  individualId : JVal
  memberId : String
  givenName1 : String
  surname : String
  preferredName : String
  email : String
  phone : String
deriving DecidableEq

/-- One raw household record.  Each description field is
`Option (Option String)`: the outer `none` models the key being absent
from the record (bracket access raises `KeyError`), the inner `none`
models a present key holding JSON `null`. -/
structure Household where
  headOfHouse : HeadOfHouse
  desc1 : Option (Option String)
  desc2 : Option (Option String)
  desc3 : Option (Option String)
  desc4 : Option (Option String)
  desc5 : Option (Option String)
deriving DecidableEq

/-- `Member.from_json` (source lines 42-64).  The five `data['descN']`
bracket accesses fail (`KeyError`, modelled as `none`) when any key is
absent; present values are filtered by Python truthiness, so `null` and
empty strings are dropped. -/
def Member.from_json (data : Household) (calling : Option String) : Option Member :=
  match data.desc1, data.desc2, data.desc3, data.desc4, data.desc5 with
  | some d1, some d2, some d3, some d4, some d5 =>
    some
      { id := data.headOfHouse.individualId
        member_number := data.headOfHouse.memberId
        given_name := data.headOfHouse.givenName1
        surname := data.headOfHouse.surname
        preferred_name := data.headOfHouse.preferredName
        email := data.headOfHouse.email
        phone := data.headOfHouse.phone
        address_parts := ([d1, d2, d3, d4, d5].filter pyTruthyStr).filterMap (fun v => v)
        calling := calling
        image_path := none }
  | _, _, _, _, _ => none

/-- One entry of the payload's calling list. -/
structure CallingRec where
  individualId : JVal
  callingName : String
deriving DecidableEq

/-- The raw payload returned by the household/callings fetch. -/
structure Payload where
  households : List Household
  callings : List CallingRec
deriving DecidableEq

/-- Python `dict` built by the loop at source lines 103-105 and read with
`.get` at line 110: last write wins on duplicate keys, and the lookup key
is compared with the stored key by ordinary (typed) equality, so an
integer key never matches a string key. -/
def dictGet (callings : List CallingRec) (k : JVal) : Option String :=
  (callings.reverse.find? (fun c => c.individualId = k)).map (fun c => c.callingName)

/-- `DataFetcher.load_members` (source lines 100-115): build the calling
index, then construct one `Member` per household, looking the calling up
at the stringified head-of-house identifier.  A `KeyError` inside any
`Member.from_json` aborts the whole list comprehension. -/
def load_members (p : Payload) : Option (List Member) :=
  p.households.mapM (fun h =>
    Member.from_json h (dictGet p.callings (.jstr (pyStr h.headOfHouse.individualId))))

/-- The expected-identifier list `self._ids` (source lines 117-118). -/
def loadIds (p : Payload) : List String :=
  p.households.map (fun h => pyStr h.headOfHouse.individualId)

/-- The identifiers derived from a cache-directory listing (source lines
127-128 and 137-138): every occurrence of `.jpg` is removed from each
filename. -/
def cachedIds (listing : List String) : List String :=
  listing.map stripJpg

/-- `downloaded_ids` as computed at source lines 136-140: the derived
cached identifiers, or the empty list under `override`. -/
def downloadedIds (listing : List String) (override : Bool) : List String :=
  if override then [] else cachedIds listing

/-- `missing_ids = set(self._ids) - set(downloaded_ids)` (source line
142). -/
def missingIds (ids listing : List String) (override : Bool) : Finset String :=
  ids.toFinset \ (downloadedIds listing override).toFinset

/-- One entry of the batched photo-metadata response.  `largeUri` is
`Option (Option String)`: the outer `none` models an entry without the
`largeUri` key (bracket access raises `KeyError`), the inner `none`
models a present key holding JSON `null`. -/
structure PhotoData where
  individualId : JVal
  largeUri : Option (Option String)
deriving DecidableEq

/-- The download loop at source lines 150-155: for each response entry,
evaluate `if photo_data['largeUri']:` and stream-download truthy URIs to
`cache/<id>.jpg`.  Returns the identifiers written (in order) and whether
a `KeyError` aborted the loop; writes made before the error persist. -/
def processPhotos : List PhotoData → List String × Bool
  | [] => ([], false)
  | p :: rest =>
    match p.largeUri with
    | none => ([], true)
    | some uri =>
      if pyTruthyStr uri then
        (pyStr p.individualId :: (processPhotos rest).1, (processPhotos rest).2)
      else processPhotos rest

/-- Persist each downloaded photo as the cache file `<id>.jpg`, modelling
the filesystem as the listing of the cache directory (a write of an
existing name overwrites in place). -/
def writeFiles (cache : List String) (ids : List String) : List String :=
  ids.foldl (fun c w => if (w ++ ".jpg") ∈ c then c else c ++ [w ++ ".jpg"]) cache

/-- `os.path.join(self._cache_dir, f'{id}.jpg')` with the cache directory
rendered as the fixed prefix `cache/` (source lines 132-133 and 153). -/
def cachePath (id : String) : String := "cache/" ++ (id ++ ".jpg")

/-- One step of the image-path assignment loop (source lines 130-133): a
pointwise update of the identifier-keyed member registry. -/
def setStep (acc : String → Option Member) (w : String) : String → Option Member :=
  fun k =>
    if k = w then (acc k).map (fun m => { m with image_path := some (cachePath w) })
    else acc k

/-- The image-path assignment loop of `load_member_images` (source lines
127-133): for every identifier derived from the cache listing that has a
matching member, set that member's `image_path`; identifiers with no
matching member are skipped. -/
def setImagePaths (members : String → Option Member) (listing : List String) :
    String → Option Member :=
  (cachedIds listing).foldl setStep members

/-- The observable outcome of one `load_member_images` run: how many
metadata fetches and file downloads hit the network, the batched request
(as the set of identifiers joined into the query), the cache listing
afterwards, the registry afterwards, and whether the run aborted with an
error. -/
structure RunResult where
  metadataFetches : Nat
  request : Option (Finset String)
  fileFetches : Nat
  cacheAfter : List String
  membersAfter : String → Option Member
  errored : Bool

/-- `DataFetcher.load_member_images` (source lines 120-155), the
`reconcile(download, override)` operation of the spec.  `response` models
the remote session: the metadata returned for a given batched request.
When `download` is set the metadata request is issued unconditionally
(source line 144); if the download loop raises, the image-path assignment
phase never runs. -/
def reconcile (cache ids : List String) (members : String → Option Member)
    (download override : Bool) (response : Finset String → List PhotoData) : RunResult :=
  if download then
    let req := missingIds ids cache override
    let written := (processPhotos (response req)).1
    let err := (processPhotos (response req)).2
    let cache2 := writeFiles cache written
    if err then
      { metadataFetches := 1, request := some req, fileFetches := written.length
        cacheAfter := cache2, membersAfter := members, errored := true }
    else
      { metadataFetches := 1, request := some req, fileFetches := written.length
        cacheAfter := cache2, membersAfter := setImagePaths members cache2, errored := false }
  else
    { metadataFetches := 0, request := none, fileFetches := 0, cacheAfter := cache
      membersAfter := setImagePaths members cache, errored := false }

/-- Total network round-trips performed by one run: the batched metadata
request plus one streamed download per written file. -/
def networkFetches (r : RunResult) : Nat := r.metadataFetches + r.fileFetches

/-- Claim-side (spec-worded) derivation of a cached identifier: strip a
trailing `.jpg` extension, leaving other names unchanged. -/
def stripExtSpec (e : String) : String :=
  if endsWithJpg e then ⟨e.data.take (e.data.length - 4)⟩ else e

/-- Claim-side missing set, with cached identifiers derived by stripping
the trailing fixed extension. -/
def missingIdsSpecStrip (ids listing : List String) (override : Bool) : Finset String :=
  if override then ids.toFinset else ids.toFinset \ (listing.map stripExtSpec).toFinset

/-- Claim-side display name: split on commas, trim each part, reverse,
join with single spaces. -/
def formattedNameSpec (preferredName : String) : String :=
  joinSpace (((pySplitComma preferredName).map pyStrip).reverse)

/-- Claim-side address lines: the values of the description fields that
are present and non-empty, in their original relative order. -/
def addressLinesSpec (fields : List (Option String)) : List String :=
  fields.filterMap (fun o =>
    match o with
    | some s => if s = "" then none else some s
    | none => none)

/-- Claim-side download writes: the stringified identifiers of exactly the
response entries carrying a non-empty URI, in order. -/
def photoWritesSpec (ps : List PhotoData) : List String :=
  ps.filterMap (fun p =>
    match p.largeUri with
    | some (some u) => if u = "" then none else some (pyStr p.individualId)
    | _ => none)

/-- A member registry with no entries. -/
def emptyMembers : String → Option Member := fun _ => none

/-- Build a member with the given identifier, preferred name, calling and
image path, leaving the remaining text fields blank. -/
def mkMember (id : JVal) (pref : String) (calling : Option String)
    (image : Option String) : Member :=
  { id := id, member_number := "", given_name := "", surname := "", preferred_name := pref
    email := "", phone := "", address_parts := [], calling := calling, image_path := image }

/-- A concrete head-of-house whose identifier is the JSON number `1`. -/
def hhouseA : HeadOfHouse :=
  { individualId := .jint 1, memberId := "m1", givenName1 := "G", surname := "S"
    preferredName := "S, G", email := "e", phone := "p" }

/-- A household whose head identifier is the JSON number `1`, with all
five description keys present. -/
def c2Household : Household :=
  { headOfHouse := hhouseA, desc1 := some (some "line"), desc2 := some none,
    desc3 := some none, desc4 := some none, desc5 := some none }

/-- A payload whose identifiers are JSON numbers, matching the `id: int`
annotation of the `Member` dataclass: one household with head identifier
`1` and one calling entry assigning Bishop to `1`. -/
def c2IntPayload : Payload :=
  { households := [c2Household],
    callings := [{ individualId := .jint 1, callingName := "Bishop" }] }

/-- A household record whose `desc1` key is absent; the other description
fields are present (non-empty, empty, non-empty, null). -/
def c5Household : Household :=
  { headOfHouse := hhouseA, desc1 := none, desc2 := some (some "A"), desc3 := some (some "")
    desc4 := some (some "B"), desc5 := some none }

/-- A member with identifier string `1` and no image path. -/
def onesMember : Member := mkMember (.jstr "1") "A, B" none none

/-- A registry holding exactly the member keyed by `1`. -/
def c4Members : String → Option Member := fun k => if k = "1" then some onesMember else none

/-- A no-download run against a cache directory whose only file is named
`1.jpg.jpg`. -/
def c4run : RunResult := reconcile ["1.jpg.jpg"] [] c4Members false false (fun _ => [])

/-- First run of the idempotence scenario: identifier `1` is expected and
already cached, the server answers every request with no entries. -/
def c3run1 : RunResult := reconcile ["1.jpg"] ["1"] emptyMembers true false (fun _ => [])

/-- Second run of the idempotence scenario, continuing from the state the
first run left behind. -/
def c3run2 : RunResult :=
  reconcile c3run1.cacheAfter ["1"] c3run1.membersAfter true false (fun _ => [])


/-- A metadata entry whose `largeUri` key is present but null. -/
def pdNull : PhotoData := { individualId := .jint 1, largeUri := some none }

/-- A metadata entry with a non-empty image URI. -/
def pdGood : PhotoData := { individualId := .jint 2, largeUri := some (some "http") }

/-- A metadata entry whose `largeUri` key is absent. -/
def pdMissing : PhotoData := { individualId := .jint 1, largeUri := none }

/-! ## Helper lemmas -/

/-- On an input without any `.jpg` occurrence, the replace scanner returns
the input unchanged, whatever the fuel. -/
theorem stripJpgFuel_no_occ (n : Nat) (l : List Char) (h : occursJpg l = false) :
    stripJpgFuel n l = l := by
  induction n generalizing l with
  | zero => cases l <;> rfl
  | succ n ih =>
    cases l with
    | nil => rfl
    | cons c rest =>
      rw [occursJpg, Bool.or_eq_false_iff] at h
      simp [stripJpgFuel, h.1, ih rest h.2]

/-- A string without any `.jpg` occurrence is left unchanged by
`replace('.jpg', '')`. -/
theorem stripJpg_no_occ (s : String) (h : occursJpg s.data = false) : stripJpg s = s := by
  show (⟨stripJpgFuel s.data.length s.data⟩ : String) = s
  rw [stripJpgFuel_no_occ _ _ h]

/-- The source's truthiness filter over the five description values agrees
with the claim-side present-and-non-empty selection. -/
theorem addressLines_filter_eq_spec (l : List (Option String)) :
    (l.filter pyTruthyStr).filterMap (fun v => v) = addressLinesSpec l := by
  induction l with
  | nil => rfl
  | cons o rest ih =>
    cases o with
    | none => simpa [addressLinesSpec, pyTruthyStr, List.filter_cons] using ih
    | some s =>
      by_cases hs : s = ""
      · subst hs
        simpa [addressLinesSpec, pyTruthyStr, List.filter_cons] using ih
      · simp only [addressLinesSpec, pyTruthyStr, List.filter_cons, List.filterMap_cons] at ih ⊢
        simp [hs, ih]

/-- Pointwise description of the image-path assignment loop: a key is
updated exactly when it occurs among the identifiers iterated over. -/
theorem foldl_setStep_apply (l : List String) (acc : String → Option Member) (k : String) :
    (l.foldl setStep acc) k =
      if k ∈ l then (acc k).map (fun m => { m with image_path := some (cachePath k) })
      else acc k := by
  induction l generalizing acc with
  | nil => simp
  | cons w rest ih =>
    rw [List.foldl_cons, ih (setStep acc w)]
    by_cases hk : k ∈ rest
    · simp only [hk, if_true, List.mem_cons, or_true, setStep]
      by_cases he : k = w
      · subst he
        simp only [if_true]
        cases acc k <;> simp
      · simp [he]
    · by_cases he : k = w
      · subst he
        simp [hk, setStep]
      · simp [hk, he, setStep, List.mem_cons]

/-- Pointwise description of `setImagePaths`. -/
theorem setImagePaths_apply (members : String → Option Member) (listing : List String)
    (k : String) :
    setImagePaths members listing k =
      if k ∈ cachedIds listing then
        (members k).map (fun m => { m with image_path := some (cachePath k) })
      else members k :=
  foldl_setStep_apply _ _ _

/-- Writing files never removes existing cache entries. -/
theorem mem_writeFiles_of_mem (ws : List String) (cache : List String) (x : String)
    (h : x ∈ cache) : x ∈ writeFiles cache ws := by
  induction ws generalizing cache with
  | nil => simpa [writeFiles] using h
  | cons w rest ih =>
    rw [writeFiles, List.foldl_cons]
    by_cases hw : (w ++ ".jpg") ∈ cache
    · rw [if_pos hw]
      exact ih cache h
    · rw [if_neg hw]
      exact ih _ (List.mem_append_left _ h)

/-- Every written identifier has its `<id>.jpg` file in the listing after
the writes. -/
theorem write_mem_writeFiles (ws : List String) (cache : List String) (w : String)
    (h : w ∈ ws) : (w ++ ".jpg") ∈ writeFiles cache ws := by
  induction ws generalizing cache with
  | nil => cases h
  | cons v rest ih =>
    rw [writeFiles, List.foldl_cons]
    rcases List.mem_cons.mp h with he | hrest
    · subst he
      by_cases hw : (w ++ ".jpg") ∈ cache
      · rw [if_pos hw]
        exact mem_writeFiles_of_mem rest cache _ hw
      · rw [if_neg hw]
        exact mem_writeFiles_of_mem rest _ _ (List.mem_append_right _ (List.mem_singleton.mpr rfl))
    · by_cases hw : (v ++ ".jpg") ∈ cache
      · rw [if_pos hw]
        exact ih cache hrest
      · rw [if_neg hw]
        exact ih _ hrest

/-- The cache path of an identifier is never the empty string. -/
theorem cachePath_ne_empty (k : String) : cachePath k ≠ "" := by
  intro h
  have h2 := congrArg String.data h
  simp [cachePath, String.data_append] at h2

/-- With `download` set, the batched metadata request carries exactly the
computed missing set. -/
theorem reconcile_download_request (cache ids : List String) (members : String → Option Member)
    (override : Bool) (response : Finset String → List PhotoData) :
    (reconcile cache ids members true override response).request =
      some (missingIds ids cache override) := by
  rw [reconcile]
  by_cases he : (processPhotos (response (missingIds ids cache override))).2 <;> simp [he]

/-- A run that completes without error ends with the image-path assignment
applied to its final cache listing. -/
theorem reconcile_membersAfter_of_ok (cache ids : List String)
    (members : String → Option Member) (download override : Bool)
    (response : Finset String → List PhotoData)
    (hok : (reconcile cache ids members download override response).errored = false) :
    (reconcile cache ids members download override response).membersAfter =
      setImagePaths members (reconcile cache ids members download override response).cacheAfter := by
  by_cases hd : download
  · subst hd
    rw [reconcile] at hok ⊢
    by_cases he : (processPhotos (response (missingIds ids cache override))).2
    · simp [he] at hok
    · simp [he]
  · simp only [Bool.not_eq_true] at hd
    subst hd
    rw [reconcile]
    simp

/-- A no-error run keeps the same cache listing description as stated by
`reconcile` itself; with `download` the listing is the written files over
the old cache. -/
theorem reconcile_download_cacheAfter (cache ids : List String)
    (members : String → Option Member) (override : Bool)
    (response : Finset String → List PhotoData) :
    (reconcile cache ids members true override response).cacheAfter =
      writeFiles cache (processPhotos (response (missingIds ids cache override))).1 := by
  rw [reconcile]
  by_cases he : (processPhotos (response (missingIds ids cache override))).2 <;> simp [he]

/-! ## Claim theorems -/

/-- C2: the claim (and the spec) say the calling index maps each
STRINGIFIED individual identifier to its calling name, and that a member
whose head-of-house identifier has a calling entry receives that calling.
The code builds the index with the raw identifier as key (source line
105) but looks it up at the stringified identifier (line 110), so for the
integer identifiers the `id: int` dataclass annotation describes, the
lookup never matches: the index holds an entry for the raw key `1`, the
lookup key `str(1)` finds nothing, and the constructed member's calling
is absent instead of Bishop. -/
theorem c2_calling_index_bug :
    dictGet c2IntPayload.callings (.jint 1) = some "Bishop" ∧
    dictGet c2IntPayload.callings (.jstr "1") = none ∧
    (load_members c2IntPayload).map (fun ms => ms.map Member.calling) = some [none] :=
  ⟨by decide, by decide, by decide⟩

/-- C5 counterexample: the claim says `from_json` produces a Member for
every household record even when a description field is absent from the
record.  On `c5Household`, whose `desc1` key is absent, the bracket
access `data['desc1']` raises (`KeyError`), so no Member is produced at
all. -/
theorem c5_counterexample : Member.from_json c5Household none = none := by decide

/-- C5 amended: when all five description keys are present (their values
may be null or empty), `from_json` produces a Member whose `id` is the
head-of-house identifier and whose address lines are exactly the
non-empty, non-null description values in their original order; when any
description key is absent from the record, construction fails and no
Member is produced. -/
theorem c5_normalizer_amended :
    (∀ (hh : HeadOfHouse) (d1 d2 d3 d4 d5 : Option String) (calling : Option String),
      Member.from_json
          { headOfHouse := hh, desc1 := some d1, desc2 := some d2, desc3 := some d3,
            desc4 := some d4, desc5 := some d5 } calling =
        some { id := hh.individualId, member_number := hh.memberId,
               given_name := hh.givenName1, surname := hh.surname,
               preferred_name := hh.preferredName, email := hh.email, phone := hh.phone,
               address_parts := addressLinesSpec [d1, d2, d3, d4, d5],
               calling := calling, image_path := none }) ∧
    (∀ (record : Household) (calling : Option String),
      (record.desc1 = none ∨ record.desc2 = none ∨ record.desc3 = none ∨
        record.desc4 = none ∨ record.desc5 = none) →
      Member.from_json record calling = none) := by
  constructor
  · intro hh d1 d2 d3 d4 d5 calling
    simp [Member.from_json, addressLines_filter_eq_spec]
  · intro record calling h
    obtain ⟨hh, o1, o2, o3, o4, o5⟩ := record
    cases o1 <;> cases o2 <;> cases o3 <;> cases o4 <;> cases o5 <;>
      simp_all [Member.from_json]

/-- C5 amended witness: a concrete all-keys-present record (values
non-empty, empty, non-empty, null, non-empty) yields a Member with
address lines in order, and a concrete record with an absent key yields
none. -/
theorem c5_normalizer_amended_witness :
    Member.from_json
        { headOfHouse := hhouseA, desc1 := some (some "A"), desc2 := some (some ""),
          desc3 := some (some "B"), desc4 := some none, desc5 := some (some "C") } none =
      some { id := hhouseA.individualId, member_number := hhouseA.memberId,
             given_name := hhouseA.givenName1, surname := hhouseA.surname,
             preferred_name := hhouseA.preferredName, email := hhouseA.email,
             phone := hhouseA.phone,
             address_parts := addressLinesSpec
               [some "A", some "", some "B", none, some "C"],
             calling := none, image_path := none } ∧
    Member.from_json c5Household none = none := by
  constructor
  · exact c5_normalizer_amended.1 hhouseA (some "A") (some "") (some "B") none (some "C") none
  · exact c5_normalizer_amended.2 c5Household none (Or.inl rfl)

/-- C6: the derived display name equals the spec recipe (split on commas,
trim each part, reverse, join with single spaces), and the two concrete
examples evaluate as the claim states. -/
theorem c6_formatted_name :
    (∀ m : Member, m.formatted_name = formattedNameSpec m.preferred_name) ∧
    (mkMember (.jint 1) "Smith, John" none none).formatted_name = "John Smith" ∧
    (mkMember (.jint 1) "Doe, Jane, Q" none none).formatted_name = "Q Jane Doe" :=
  ⟨fun _ => rfl, by decide, by decide⟩

/-- C8 counterexample: the claim says `formatted_calling` returns the
stored calling verbatim whenever a calling is present.  A member whose
calling is present but equal to the empty string is falsy under Python's
`if self.calling:`, so the code returns the placeholder, not the stored
empty string. -/
theorem c8_counterexample :
    (mkMember (.jint 1) "" (some "") none).formatted_calling = noCallingPlaceholder ∧
    noCallingPlaceholder ≠ "" :=
  ⟨by decide, by decide⟩

/-- C8 amended: `formatted_calling` returns the stored calling verbatim
when it is present and non-empty, and returns the fixed placeholder when
the calling is absent or the empty string. -/
theorem c8_formatted_calling_amended (m : Member) :
    (∀ c : String, m.calling = some c → c ≠ "" → m.formatted_calling = c) ∧
    (m.calling = none → m.formatted_calling = noCallingPlaceholder) ∧
    (m.calling = some "" → m.formatted_calling = noCallingPlaceholder) := by
  refine ⟨?_, ?_, ?_⟩
  · intro c hc hne
    simp [Member.formatted_calling, hc, hne]
  · intro hc
    simp [Member.formatted_calling, hc]
  · intro hc
    simp [Member.formatted_calling, hc]

/-- C8 amended witness: a present non-empty calling is returned verbatim
and an absent calling yields the placeholder. -/
theorem c8_formatted_calling_amended_witness :
    (mkMember (.jint 1) "" (some "Bishop") none).formatted_calling = "Bishop" ∧
    (mkMember (.jint 1) "" none none).formatted_calling = noCallingPlaceholder :=
  ⟨(c8_formatted_calling_amended (mkMember (.jint 1) "" (some "Bishop") none)).1
      "Bishop" rfl (by decide),
   (c8_formatted_calling_amended (mkMember (.jint 1) "" none none)).2.1 rfl⟩

/-- C1 counterexample: the claim derives cached identifiers by stripping
the fixed trailing extension from each cache filename.  The code instead
removes every `.jpg` occurrence, so with the cache listing `[1.jpg.jpg]`
and expected identifiers `[1.jpg]`, the claim predicts an empty missing
set (the identifier `1.jpg` is cached as `1.jpg.jpg`), while the code
derives the cached identifier `1` and requests metadata for exactly
`{1.jpg}`. -/
theorem c1_counterexample :
    (reconcile ["1.jpg.jpg"] ["1.jpg"] emptyMembers true false (fun _ => [])).request =
      some {"1.jpg"} ∧
    missingIdsSpecStrip ["1.jpg"] ["1.jpg.jpg"] false = ∅ :=
  ⟨by decide, by decide⟩

/-- C1 amended: with cached identifiers derived by removing every `.jpg`
occurrence from each cache filename, `reconcile(download=true)` requests
the batched metadata fetch for exactly `knownIds()` minus the cached
identifiers, or for the entire `knownIds()` set under `override`; in the
concrete scenario (cache holds `1.jpg`, known identifiers `1` and `2`,
no override) the request is exactly `{2}`. -/
theorem c1_missing_set_amended :
    (∀ (cache ids : List String) (members : String → Option Member) (override : Bool)
        (response : Finset String → List PhotoData),
      (reconcile cache ids members true override response).request =
        some (if override then ids.toFinset
              else ids.toFinset \ (cachedIds cache).toFinset)) ∧
    (reconcile ["1.jpg"] ["1", "2"] emptyMembers true false (fun _ => [])).request =
      some {"2"} := by
  constructor
  · intro cache ids members override response
    rw [reconcile_download_request]
    cases override <;> simp [missingIds, downloadedIds]
  · decide

/-- C9 counterexample: the claim says a cache filename that does not end in
`.jpg` yields a cached identifier equal to the full, unstripped filename.
The filename `a.jpgb` does not end in `.jpg`, yet the code removes the
interior `.jpg` occurrence and derives `ab`, not `a.jpgb`. -/
theorem c9_counterexample :
    cachedIds ["a.jpgb"] = ["ab"] ∧ endsWithJpg "a.jpgb" = false ∧
    ("ab" : String) ≠ "a.jpgb" :=
  ⟨by decide, by decide, by decide⟩

/-- C9 amended: cached identifiers are derived by removing every `.jpg`
occurrence (not only a trailing extension — `1.jpg.jpg` derives `1`
although extension-stripping would give `1.jpg`); every listed file,
whatever its name, contributes a cached identifier, which equals the full
unstripped filename exactly when the name contains no `.jpg` occurrence
(so `a.jpgb` still loses its interior occurrence and derives `ab`). -/
theorem c9_strip_amended :
    (∀ (listing : List String) (entry : String), entry ∈ listing →
      stripJpg entry ∈ cachedIds listing) ∧
    (∀ s : String, occursJpg s.data = false → stripJpg s = s) ∧
    cachedIds ["1.jpg.jpg"] = ["1"] ∧
    stripExtSpec "1.jpg.jpg" = "1.jpg" ∧
    cachedIds ["a.jpgb"] = ["ab"] := by
  refine ⟨?_, stripJpg_no_occ, by decide, by decide, by decide⟩
  intro listing entry h
  exact List.mem_map_of_mem stripJpg h

/-- C9 amended witness: a listed file contributes its derived identifier,
and a name with no `.jpg` occurrence is left unstripped. -/
theorem c9_strip_amended_witness :
    stripJpg "7.jpg" ∈ cachedIds ["7.jpg"] ∧ stripJpg "abc" = "abc" :=
  ⟨c9_strip_amended.1 ["7.jpg"] "7.jpg" (by decide),
   c9_strip_amended.2.1 "abc" (by decide)⟩

/-- C10: the missing set is a function of the distinct expected
identifiers and the distinct cached identifiers only — lists with equal
identifier sets (in particular a list with duplicated heads of house and
its deduplication) produce the same missing set, and hence the same
batched fetch request. -/
theorem c10_missing_set_extensional :
    (∀ (ids1 ids2 listing : List String) (override : Bool),
      ids1.toFinset = ids2.toFinset →
      missingIds ids1 listing override = missingIds ids2 listing override) ∧
    (∀ (ids listing : List String) (override : Bool),
      missingIds ids listing override = missingIds ids.dedup listing override) ∧
    (∀ (cache ids1 ids2 : List String) (members : String → Option Member) (override : Bool)
        (response : Finset String → List PhotoData),
      ids1.toFinset = ids2.toFinset →
      (reconcile cache ids1 members true override response).request =
        (reconcile cache ids2 members true override response).request) := by
  refine ⟨?_, ?_, ?_⟩
  · intro ids1 ids2 listing override h
    simp [missingIds, h]
  · intro ids listing override
    have h : ids.dedup.toFinset = ids.toFinset := by
      ext x
      simp [List.mem_toFinset, List.mem_dedup]
    simp [missingIds, h]
  · intro cache ids1 ids2 members override response h
    rw [reconcile_download_request, reconcile_download_request]
    simp [missingIds, h]

/-- C10 witness: duplicating an expected identifier leaves the missing set
unchanged. -/
theorem c10_missing_set_extensional_witness :
    missingIds ["1", "1", "2"] ["1.jpg"] false = missingIds ["1", "2"] ["1.jpg"] false :=
  c10_missing_set_extensional.1 ["1", "1", "2"] ["1", "2"] ["1.jpg"] false (by decide)

/-- With `download` set, exactly one metadata request is made, whatever
else happens. -/
theorem reconcile_metadataFetches_download (cache ids : List String)
    (members : String → Option Member) (override : Bool)
    (response : Finset String → List PhotoData) :
    (reconcile cache ids members true override response).metadataFetches = 1 := by
  rw [reconcile]
  by_cases he : (processPhotos (response (missingIds ids cache override))).2 <;> simp [he]

/-- With `download` set, the number of streamed file downloads is the
number of identifiers the download loop wrote. -/
theorem reconcile_fileFetches_download (cache ids : List String)
    (members : String → Option Member) (override : Bool)
    (response : Finset String → List PhotoData) :
    (reconcile cache ids members true override response).fileFetches =
      (processPhotos (response (missingIds ids cache override))).1.length := by
  rw [reconcile]
  by_cases he : (processPhotos (response (missingIds ids cache override))).2 <;> simp [he]

/-- C3 counterexample: with identifier `1` expected and already cached and
a server that answers every request with no entries, the first run leaves
every expected identifier cached, yet the second run still performs one
network fetch — the code issues the batched metadata request
unconditionally (source line 144) even though its missing set is empty —
contradicting the claimed zero additional fetches. -/
theorem c3_counterexample :
    ("1" ∈ cachedIds c3run1.cacheAfter) ∧ networkFetches c3run2 = 1 ∧
    networkFetches c3run2 ≠ 0 :=
  ⟨by decide, by decide, by decide⟩

/-- C3 amended: when every expected identifier is cached after the first
run and the server returns no entries for an empty identifier set, the
second `reconcile(download=true, override=false)` run performs exactly
one network fetch — the unconditional batched metadata request, issued
for the empty missing set — and zero photo-file downloads. -/
theorem c3_second_run_amended (cache ids : List String) (members : String → Option Member)
    (response : Finset String → List PhotoData)
    (hcached : ∀ id ∈ ids,
      id ∈ cachedIds (reconcile cache ids members true false response).cacheAfter)
    (hempty : response ∅ = []) :
    networkFetches (reconcile (reconcile cache ids members true false response).cacheAfter ids
        (reconcile cache ids members true false response).membersAfter true false response) = 1 ∧
    (reconcile (reconcile cache ids members true false response).cacheAfter ids
        (reconcile cache ids members true false response).membersAfter true false
        response).request = some ∅ ∧
    (reconcile (reconcile cache ids members true false response).cacheAfter ids
        (reconcile cache ids members true false response).membersAfter true false
        response).fileFetches = 0 := by
  have hmiss :
      missingIds ids (reconcile cache ids members true false response).cacheAfter false = ∅ := by
    rw [missingIds]
    rw [Finset.sdiff_eq_empty_iff_subset]
    intro x hx
    rw [List.mem_toFinset] at hx
    rw [downloadedIds, if_neg (by simp), List.mem_toFinset]
    exact hcached x hx
  refine ⟨?_, ?_, ?_⟩
  · rw [networkFetches, reconcile_metadataFetches_download, reconcile_fileFetches_download,
      hmiss, hempty]
    rfl
  · rw [reconcile_download_request, hmiss]
  · rw [reconcile_fileFetches_download, hmiss, hempty]
    rfl

/-- C3 amended witness: the concrete already-cached scenario makes exactly
one fetch on the second run. -/
theorem c3_second_run_amended_witness :
    (∀ id ∈ ["1"],
      id ∈ cachedIds (reconcile ["1.jpg"] ["1"] emptyMembers true false
        (fun _ => [])).cacheAfter) ∧
    networkFetches (reconcile
        (reconcile ["1.jpg"] ["1"] emptyMembers true false (fun _ => [])).cacheAfter ["1"]
        (reconcile ["1.jpg"] ["1"] emptyMembers true false (fun _ => [])).membersAfter
        true false (fun _ => [])) = 1 := by
  constructor
  · decide
  · exact (c3_second_run_amended ["1.jpg"] ["1"] emptyMembers (fun _ => [])
      (by decide) rfl).1

/-- C4 counterexample: with the cache listing containing only the file
`1.jpg.jpg` and a registry holding member `1`, a completed reconcile sets
member `1`'s image path to `cache/1.jpg` — a path under which no listed
file exists.  Under either reading of the claim this is a violation: if
identifier `1` counts as appearing in the listing, its image path points
at a non-existent file; if it counts as absent (no `1.jpg` file is
listed), the image path should have stayed absent but was set. -/
theorem c4_counterexample :
    c4run.membersAfter "1" = some { onesMember with image_path := some "cache/1.jpg" } ∧
    "cache/1.jpg" ∉ c4run.cacheAfter.map (fun e => "cache/" ++ e) :=
  ⟨by decide, by decide⟩

/-- C4 amended: after a reconcile run that completes without error, every
member whose identifier is among the identifiers derived from the final
cache listing (filenames with every `.jpg` occurrence removed) has its
image path set to the non-empty path `cache/<id>.jpg`; that path names a
listed file whenever the listing actually contains the filename
`<id>.jpg` (as it does for every file the download pass itself wrote);
members whose identifiers are not among the derived identifiers are left
untouched; and derived identifiers with no matching member leave the
registry unchanged at that key (no error is raised). -/
theorem c4_registry_amended (cache ids : List String) (members : String → Option Member)
    (download override : Bool) (response : Finset String → List PhotoData) (k : String)
    (hok : (reconcile cache ids members download override response).errored = false) :
    (k ∈ cachedIds (reconcile cache ids members download override response).cacheAfter →
      (reconcile cache ids members download override response).membersAfter k =
        (members k).map (fun m => { m with image_path := some (cachePath k) })) ∧
    (k ∉ cachedIds (reconcile cache ids members download override response).cacheAfter →
      (reconcile cache ids members download override response).membersAfter k = members k) ∧
    (members k = none →
      (reconcile cache ids members download override response).membersAfter k = none) ∧
    ((k ++ ".jpg") ∈ (reconcile cache ids members download override response).cacheAfter →
      cachePath k ∈ (reconcile cache ids members download override response).cacheAfter.map
        (fun e => "cache/" ++ e)) ∧
    cachePath k ≠ "" := by
  have hm := reconcile_membersAfter_of_ok cache ids members download override response hok
  refine ⟨?_, ?_, ?_, ?_, cachePath_ne_empty k⟩
  · intro hk
    rw [hm, setImagePaths_apply, if_pos hk]
  · intro hk
    rw [hm, setImagePaths_apply, if_neg hk]
  · intro hnone
    rw [hm, setImagePaths_apply]
    by_cases hk : k ∈ cachedIds (reconcile cache ids members download override response).cacheAfter <;>
      simp [hk, hnone]
  · intro hk
    exact List.mem_map_of_mem _ hk

/-- C4 amended witness: a completed run over the listing `[1.jpg]` sets
member `1`'s image path to `cache/1.jpg`. -/
theorem c4_registry_amended_witness :
    (reconcile ["1.jpg"] [] c4Members false false (fun _ => [])).errored = false ∧
    ("1" ∈ cachedIds (reconcile ["1.jpg"] [] c4Members false false (fun _ => [])).cacheAfter) ∧
    (reconcile ["1.jpg"] [] c4Members false false (fun _ => [])).membersAfter "1" =
      some { onesMember with image_path := some (cachePath "1") } := by
  refine ⟨by decide, by decide, ?_⟩
  have h := (c4_registry_amended ["1.jpg"] [] c4Members false false (fun _ => []) "1"
    (by decide)).1 (by decide)
  rw [h]
  decide

/-- C7 counterexample: the claim says a response entry whose large-image
URI is absent is skipped silently with no error.  An entry without the
`largeUri` key makes the bracket access raise (`KeyError`): the download
loop reports an error instead of skipping, and a download-pass run ends
errored. -/
theorem c7_counterexample :
    processPhotos [pdMissing] = ([], true) ∧
    (reconcile [] ["1"] emptyMembers true false (fun _ => [pdMissing])).errored = true :=
  ⟨by decide, by decide⟩

/-- C7 amended: for response entries whose `largeUri` key is present, the
download pass never errors and downloads exactly the entries with a
non-empty URI, in order, to `cache/<id>.jpg`; a present-but-empty or
present-but-null URI is skipped silently (no write, no error); an entry
whose `largeUri` key is absent is the only way the pass errors. -/
theorem c7_download_skip_amended :
    (∀ ps : List PhotoData, (∀ p ∈ ps, p.largeUri ≠ none) →
      processPhotos ps = (photoWritesSpec ps, false)) ∧
    (∀ (p : PhotoData) (ps : List PhotoData),
      p.largeUri = some none ∨ p.largeUri = some (some "") →
      processPhotos (p :: ps) = processPhotos ps) ∧
    (∀ (cache ws : List String) (w : String), w ∈ ws →
      (w ++ ".jpg") ∈ writeFiles cache ws) := by
  refine ⟨?_, ?_, fun cache ws w h => write_mem_writeFiles ws cache w h⟩
  · intro ps h
    induction ps with
    | nil => rfl
    | cons p rest ih =>
      have hp : p.largeUri ≠ none := h p (List.mem_cons_self p rest)
      have hrest : ∀ q ∈ rest, q.largeUri ≠ none :=
        fun q hq => h q (List.mem_cons_of_mem p hq)
      rcases hu : p.largeUri with _ | u
      · exact absurd hu hp
      · cases u with
        | none =>
          simp [processPhotos, photoWritesSpec, hu, pyTruthyStr, ih hrest]
        | some s =>
          by_cases hs : s = ""
          · subst hs
            simp [processPhotos, photoWritesSpec, hu, pyTruthyStr, ih hrest]
          · simp [processPhotos, photoWritesSpec, hu, pyTruthyStr, hs, ih hrest]
  · intro p ps h
    rcases h with h | h <;> simp [processPhotos, h, pyTruthyStr]

/-- C7 amended witness: a null-URI entry followed by a good entry yields
exactly the good entry's download and no error, and a written identifier
is present as a cache file. -/
theorem c7_download_skip_amended_witness :
    processPhotos [pdNull, pdGood] = (photoWritesSpec [pdNull, pdGood], false) ∧
    ("2" ++ ".jpg") ∈ writeFiles [] ["2"] :=
  ⟨c7_download_skip_amended.1 [pdNull, pdGood] (by decide),
   c7_download_skip_amended.2.2 [] ["2"] "2" (by decide)⟩
